import Mathlib

/-!
Verification development for the high-five Slack kudos bot.

The definitions below are shallow embeddings of the Go functions in
`internal/services/modal.go`, `internal/services/formatting.go`,
`internal/services/kudos.go`, `internal/handlers/block_actions.go`,
`internal/handlers/view_submission.go` and `internal/models/kudos_types.go`.

The modal template is a generic JSON tree in the source
(`map[string]interface{}` / `[]interface{}`).  `UpdateModal` only ever reads
or writes a fixed set of keys (`block_id`, `type`, `element`, `elements`,
`label`, `initial_value`, and inside elements `action_id`, `placeholder`,
`text`, `emoji`); every other key is carried through untouched.  The
embedding therefore models a block as a record with one field per key the
code distinguishes, plus an opaque `rest` field standing for all keys the
code never touches.  An `Option` field is `none` exactly when the JSON key
is absent or has a type for which the source's type assertion (`.(string)`,
`.(map[string]interface{})`) fails, since those two situations are
indistinguishable to the code.
-/

/-- A `{type, text, emoji}` text object as constructed by the source
(`plain_text` / `mrkdwn` objects). -/
structure TextObj where
  ttype : String
  text : String
  emoji : Option Bool
deriving DecidableEq, Repr

/-- The `element` object of a block: the keys `UpdateModal` reads or writes
(`type`, `action_id`, `placeholder`, `initial_value`) plus opaque others.
`initialValue` is `some v` exactly when the JSON key `initial_value` is
present and holds the string `v` (the only case the source's
`.(string)` assertion accepts). -/
structure ElementMap where
  etype : Option String
  actionId : Option String
  placeholder : Option TextObj
  initialValue : Option String
  rest : List (String × String)
deriving DecidableEq, Repr

/-- One block of the modal's `blocks` array, as far as the source looks at
it: `block_id`, `type`, `label`, `element`, `elements`, plus opaque other
keys. -/
structure BlockMap where
  blockId : Option String
  btype : Option String
  label : Option TextObj
  element : Option ElementMap
  elements : Option (List TextObj)
  rest : List (String × String)
deriving DecidableEq, Repr

/-- An entry of the `blocks` `[]interface{}` array.  The source skips
entries that are not JSON objects (`continue` in the scan loop) but keeps
them in the list; `other` models such an entry with an opaque payload. -/
inductive BlockEntry where
  | map (b : BlockMap)
  | other (raw : String)
deriving DecidableEq, Repr

/-- The map `models.KudoSuggestedMessages` from `internal/models/kudos_types.go`:
kudo type slug → suggested message. -/
def KudoSuggestedMessages : List (String × String) :=
  [ ("entrega-excepcional", "Sua dedicação e capricho na entrega fizeram toda a diferença!"),
    ("espirito-de-equipe", "Obrigado por estar sempre a disposição para ajudar o time!"),
    ("ideia-brilhante", "Sua ideia trouxe uma perspectiva nova e valiosa para o problema!"),
    ("acima-e-alem", "Você foi além das expectativas e isso não passou despercebido!"),
    ("mestre-em-ensinar", "Obrigado por compartilhar seu conhecimento e ajudar o time a crescer!"),
    ("resolvedor-de-problemas", "Sua habilidade de resolver problemas salvou o dia!"),
    ("atitude-positiva", "Sua energia positiva contagia e motiva todo o time!"),
    ("crescimento-continuo", "Inspirador ver sua dedicação em sempre aprender e evoluir!"),
    ("conquista-do-time", "Parabéns pela conquista! Sucesso de todos nós!"),
    ("resiliencia", "Sua persistência diante dos desafios é admirável!") ]

/-- The map `models.KudoDescriptions` from `internal/models/kudos_types.go`:
kudo type slug → one-sentence description. -/
def KudoDescriptions : List (String × String) :=
  [ ("entrega-excepcional", "Reconhecer entregas de alta qualidade, no prazo ou superando expectativas"),
    ("espirito-de-equipe", "Colaboração, ajudar colegas, trabalho em conjunto"),
    ("ideia-brilhante", "Inovação, criatividade, soluções inteligentes"),
    ("acima-e-alem", "Ir além do esperado, esforço extra"),
    ("mestre-em-ensinar", "Compartilhar conhecimento, mentorar, ensinar"),
    ("resolvedor-de-problemas", "Resolver problemas complexos, troubleshooting"),
    ("atitude-positiva", "Manter o moral alto, positividade, energia boa"),
    ("crescimento-continuo", "Aprendizado, desenvolvimento pessoal, adaptabilidade"),
    ("conquista-do-time", "Vitórias coletivas, marcos alcançados"),
    ("resiliencia", "Superar desafios, persistência, lidar com adversidades") ]

/-- Does this entry pass the Go comparison `blockMap["block_id"] == bid`
(a non-object entry never does)? -/
def isBlockWithId (bid : String) : BlockEntry → Bool
  | .map b => b.blockId == some bid
  | .other _ => false

/-- One step of the scan loop of `UpdateModal` (modal.go lines 86-91): a
block whose `block_id` is `"kudo_message"` and whose `element` is an object
gets `element["initial_value"] = messageValue`, but only when
`messageValue != ""`.  All other entries are left as they are. -/
def touchMessage (messageValue : String) : BlockEntry → BlockEntry
  | .map b =>
      if b.blockId == some "kudo_message" then
        match b.element with
        | some e =>
            if messageValue ≠ "" then
              .map { b with element := some { e with initialValue := some messageValue } }
            else .map b
        | none => .map b
      else .map b
  | .other raw => .other raw

/-- Final value of a Go loop variable of the form
`for i, block := range blocks { if <match> { idx = i } }`: the index of the
LAST matching entry, `none` standing for the sentinel `-1`. -/
def lastIdxOfBlockId (bid : String) : List BlockEntry → Option Nat
  | [] => none
  | b :: bs =>
      match lastIdxOfBlockId bid bs with
      | some j => some (j + 1)
      | none => if isBlockWithId bid b then some 0 else none

/-- Any-match over the block list, used to phrase "the template contains a block with
this `block_id`". -/
def containsBlockId (bid : String) (blocks : List BlockEntry) : Bool :=
  blocks.any (isBlockWithId bid)

/-- The `input`-type description block literal built for the `"custom"`
kudo type (modal.go lines 99-116), before the optional carry-forward of a
prior value. -/
def customDescriptionBase : BlockMap :=
  { blockId := some "kudo_description"
    btype := some "input"
    label := some { ttype := "plain_text", text := "Nome do tipo de elogio", emoji := some true }
    element := some
      { etype := some "plain_text_input"
        actionId := some "kudo_description"
        placeholder := some
          { ttype := "plain_text"
            text := "Ex: Super Colaborador, Líder Inspirador..."
            emoji := some true }
        initialValue := none
        rest := [] }
    elements := none
    rest := [] }

/-- The `context`-type description block built for a predefined kudo type
(modal.go lines 141-150). -/
def contextDescriptionBlock (description : String) : BlockMap :=
  { blockId := some "kudo_description"
    btype := some "context"
    label := none
    element := none
    elements := some [{ ttype := "mrkdwn", text := "💡 _" ++ description ++ "_", emoji := none }]
    rest := [] }

/-- The nested lookup of modal.go lines 121-132: read
`blocks[descriptionBlockIndex]`, assert it is an object, assert its
`element` is an object, assert its `initial_value` is a string, and accept
it only when non-empty. -/
def recoveredPrior (scanned : List BlockEntry) : Option Nat → Option String
  | some j =>
      match scanned[j]? with
      | some (.map b) =>
          match b.element with
          | some e =>
              match e.initialValue with
              | some v => if v ≠ "" then some v else none
              | none => none
          | none => none
      | _ => none
  | none => none

/-- Write the carried-forward value into the custom description block's
element (modal.go lines 127-128). -/
def setDescInitial (b : BlockMap) (v : String) : BlockMap :=
  { b with element := b.element.map fun e => { e with initialValue := some v } }

/-- Construction of the replacement description block (modal.go lines
94-151).  For `"custom"` the carry-forward of a prior value is attempted
only when `messageValue != ""` (the outer `if` on line 119); otherwise the
description catalog is consulted with the fixed fallback text on a miss. -/
def buildDescriptionBlock (selectedKudoType messageValue : String)
    (scanned : List BlockEntry) (descriptionBlockIndex : Option Nat) : BlockMap :=
  if selectedKudoType == "custom" then
    if messageValue ≠ "" then
      match recoveredPrior scanned descriptionBlockIndex with
      | some v => setDescInitial customDescriptionBase v
      | none => customDescriptionBase
    else customDescriptionBase
  else
    let description := (KudoDescriptions.lookup selectedKudoType).getD ""
    let description := if description == "" then "Tipo de elogio selecionado" else description
    contextDescriptionBlock description

/-- The block-list mutation performed by `UpdateModal` (modal.go lines
69-162): scan (recording the last `kudo_type` and `kudo_description`
indices and pre-filling the message field), build the replacement
description block, then insert it right after `kudo_type` when no
description block exists, overwrite the existing one in place when it
does, and do neither when both indices are missing. -/
def updateModalBlocks (selectedKudoType messageValue : String)
    (blocks : List BlockEntry) : List BlockEntry :=
  let scanned := blocks.map (touchMessage messageValue)
  let kudoTypeIndex := lastIdxOfBlockId "kudo_type" scanned
  let descriptionBlockIndex := lastIdxOfBlockId "kudo_description" scanned
  let descriptionBlock :=
    buildDescriptionBlock selectedKudoType messageValue scanned descriptionBlockIndex
  match descriptionBlockIndex, kudoTypeIndex with
  | none, some i => scanned.take (i + 1) ++ [.map descriptionBlock] ++ scanned.drop (i + 1)
  | some j, _ => scanned.set j (.map descriptionBlock)
  | none, none => scanned

/-- The `view` object of the parsed template: its `blocks` key when present
and an array (`none` models absent-or-not-an-array, the case the source's
`.([]interface{})` assertion rejects), plus opaque other keys. -/
structure ViewObj where
  blocks : Option (List BlockEntry)
  rest : List (String × String)
deriving DecidableEq, Repr

/-- Top level of the parsed template JSON: the `view` key when present and
an object, plus opaque other keys. -/
structure TemplateTop where
  view : Option ViewObj
  rest : List (String × String)
deriving DecidableEq, Repr

/-- Outcome of `json.Unmarshal` on the template string: either a parse
failure or a parsed document. -/
inductive ParsedTemplate where
  | malformed
  | parsed (t : TemplateTop)
deriving DecidableEq, Repr

/-- The `views.update` request body assembled on modal.go lines 164-168:
`view_id`, `hash`, and the mutated `view` object. -/
structure UpdateEnvelope where
  viewId : String
  hash : String
  viewBlocks : List BlockEntry
  viewRest : List (String × String)
deriving DecidableEq, Repr

/-- The pure prefix of `UpdateModal` (modal.go lines 53-173): structural
checks on the parsed template, the block-list mutation, and assembly of the
update envelope.  Errors are the source's error strings; the remote call
itself is outside this function. -/
def UpdateModalBuild (viewID hash selectedKudoType messageValue : String)
    (tpl : ParsedTemplate) : Except String UpdateEnvelope :=
  match tpl with
  | .malformed => .error "error parsing view template"
  | .parsed t =>
      match t.view with
      | none => .error "invalid view structure in template"
      | some view =>
          match view.blocks with
          | none => .error "invalid blocks structure in template"
          | some blocks =>
              .ok { viewId := viewID
                    hash := hash
                    viewBlocks := updateModalBlocks selectedKudoType messageValue blocks
                    viewRest := view.rest }

/-- Decoded `{ok, error}` Slack response body (the struct of modal.go
lines 194-197). -/
structure SlackResp where
  ok : Bool
  error : String
deriving DecidableEq, Repr

/-- Response handling of `UpdateModal` (modal.go lines 202-207): a `false`
`ok` is turned into the error `"slack API error: <error>"`, a `true` `ok`
into success. -/
def updateModalHandleResponse (resp : SlackResp) : Except String Unit :=
  if resp.ok then .ok () else .error ("slack API error: " ++ resp.error)

/-- Response handling of `OpenModal` (modal.go lines 43-49): the status and
body are only logged; the function returns `nil` whatever they contain. -/
def openModalHandleResponse (status body : String) : Except String Unit :=
  .ok ()

/-- The suggested-message computation of `HandleBlockActions`
(block_actions.go lines 28-42): for `"custom"` pass the current message
through; otherwise substitute the catalog's suggestion only when the
current message is empty. -/
def computeSuggestedMessage (selectedValue currentMessage : String) : String :=
  if selectedValue == "custom" then currentMessage
  else if currentMessage == "" then (KudoSuggestedMessages.lookup selectedValue).getD ""
  else currentMessage

/-- Block list sent by the `block_actions` flow: `HandleBlockActions`
feeds `computeSuggestedMessage`'s result into `UpdateModal` as the
message value (block_actions.go lines 45-52). -/
def blockActionsUpdatedBlocks (selectedValue currentMessage : String)
    (blocks : List BlockEntry) : List BlockEntry :=
  updateModalBlocks selectedValue (computeSuggestedMessage selectedValue currentMessage) blocks

/-- Go's `len(s)`: the UTF-8 byte length of the string. -/
def goLen (s : String) : Nat :=
  s.data.foldl (fun n c => n + c.utf8Size) 0

/-- Go's `strings.TrimSpace`: remove leading and trailing whitespace. -/
def trimSpace (s : String) : String :=
  String.mk (((s.data.dropWhile Char.isWhitespace).reverse.dropWhile Char.isWhitespace).reverse)

/-- Recursion core of the one-character splitter: the piece under
construction and the pieces already closed off to the right. -/
def splitCharCore (sep : Char) : List Char → List Char × List (List Char)
  | [] => ([], [])
  | c :: cs =>
      let r := splitCharCore sep cs
      if c = sep then ([], r.1 :: r.2) else (c :: r.1, r.2)

/-- Go's `strings.Split(s, sep)` for a one-character separator, on the
character list: always returns at least one (possibly empty) piece. -/
def splitChar (sep : Char) (l : List Char) : List (List Char) :=
  (splitCharCore sep l).1 :: (splitCharCore sep l).2

/-- Go's `strings.Join(xs, sep)`. -/
def stringsJoin (sep : String) : List String → String
  | [] => ""
  | [x] => x
  | x :: xs => x ++ sep ++ stringsJoin sep xs

/-- Go's `strings.Split(s, "\n")`, lifted back to strings. -/
def stringsSplitNl (s : String) : List String :=
  (splitChar '\n' s.data).map String.mk

/-- Embedding of `services.FormatUsersForSlack` (formatting.go lines 12-18): wrap each
user id as a mention and join with `", "`. -/
def FormatUsersForSlack (userIDs : List String) : String :=
  stringsJoin ", " (userIDs.map fun userID => "<@" ++ userID ++ ">")

/-- Embedding of `services.FormatAsSlackQuote` (formatting.go lines 22-32): empty
message stays empty; otherwise prefix every line with `"> "` and rejoin. -/
def FormatAsSlackQuote (message : String) : String :=
  if message == "" then ""
  else stringsJoin "\n" ((stringsSplitNl message).map fun line => "> " ++ line)

/-- The `slack.Block` values `FormatKudosAsBlocks` constructs: header,
section (optional text plus fields), divider, and context blocks. -/
inductive SlackBlock where
  | header (text : TextObj)
  | section (text : Option TextObj) (fields : List TextObj)
  | divider
  | context (blockId : String) (elements : List TextObj)
deriving DecidableEq, Repr

/-- Constructor tag of a `SlackBlock`, for stating the fixed 7-block
shape. -/
inductive SlackBlockKind where
  | header
  | section
  | divider
  | context
deriving DecidableEq, Repr

/-- Tag of a block. -/
def kindOf : SlackBlock → SlackBlockKind
  | .header _ => .header
  | .section _ _ => .section
  | .divider => .divider
  | .context _ _ => .context

/-- Embedding of `services.FormatKudosAsBlocks` (formatting.go lines 35-93): the fixed
7-block Block Kit message. -/
def FormatKudosAsBlocks (senderID : String) (recipientIDs : List String)
    (kudoTypeEmoji kudoTypeText message : String) : List SlackBlock :=
  let recipientsFormatted := FormatUsersForSlack recipientIDs
  let quotedMessage := FormatAsSlackQuote message
  [ .header { ttype := "plain_text", text := "🎉 Novo Elogio! 🎉", emoji := some true },
    .section none
      [ { ttype := "mrkdwn", text := "*De:*\n<@" ++ senderID ++ ">", emoji := none },
        { ttype := "mrkdwn", text := "*Para:*\n" ++ recipientsFormatted, emoji := none } ],
    .divider,
    .section (some { ttype := "mrkdwn", text := kudoTypeEmoji ++ " *" ++ kudoTypeText ++ "*", emoji := none }) [],
    .section (some { ttype := "mrkdwn", text := quotedMessage, emoji := none }) [],
    .divider,
    .context "" [{ ttype := "mrkdwn", text := "✨ _Continue fazendo a diferença!_ ✨", emoji := none }] ]

/-- Embedding of `services.ParseKudoTypeText` (kudos.go lines 60-65): split the full
kudo type label on its first space, but only when that space is not the
leading character (`idx > 0`); otherwise the emoji is empty and the whole
string is the text. -/
def ParseKudoTypeText (kudoTypeFullText : String) : String × String :=
  let l := kudoTypeFullText.data
  let idx := l.indexOf ' '
  if 0 < idx ∧ idx < l.length then (String.mk (l.take idx), String.mk (l.drop (idx + 1)))
  else ("", kudoTypeFullText)

/-- One remote Slack Web API call, for recording the order of calls made by
`PostKudos`. -/
inductive ApiCall where
  | invite (channelID userID : String)
  | postMessage (channelID : String) (blocks : List SlackBlock) (text : String)
deriving DecidableEq, Repr

/-- Embedding of `services.InviteUsersToChannel` (kudos.go lines 13-28) as the trace of
calls it performs: one invite per recipient, in list order.  The function
inspects each invite's outcome only to choose between two log lines
(`already_in_channel` vs other errors); every branch continues the loop and
the function returns nothing, so outcomes do not appear in the model. -/
def InviteUsersToChannel (recipientIDs : List String) (channelID : String) : List ApiCall :=
  recipientIDs.map fun userID => .invite channelID userID

/-- Embedding of `services.PostKudos` (kudos.go lines 31-56): invite all recipients,
then post the formatted message; the returned pair is the ordered call
trace and the operation's result.  `inviteOutcomes` assigns each recipient
the outcome of its invite attempt and `postOutcome` the outcome of the
`PostMessage` call (success carries the `(channel, timestamp)` pair). -/
def PostKudos (senderID : String) (recipientIDs : List String)
    (kudoTypeEmoji kudoTypeText message channelID : String)
    (inviteOutcomes : String → Option String)
    (postOutcome : Except String (String × String)) :
    List ApiCall × Except String Unit :=
  let inviteCalls := InviteUsersToChannel recipientIDs channelID
  let blocks := FormatKudosAsBlocks senderID recipientIDs kudoTypeEmoji kudoTypeText message
  let usersString := FormatUsersForSlack recipientIDs
  let fallbackText :=
    "<@" ++ senderID ++ ">" ++ " elogiou " ++ usersString ++ ": " ++ kudoTypeEmoji ++ " " ++ kudoTypeText
  ( inviteCalls ++ [.postMessage channelID blocks fallbackText],
    match postOutcome with
    | .error e => .error ("error posting message: " ++ e)
    | .ok _ => .ok () )

/-- The fields `HandleViewSubmission` reads out of
`callback.View.State.Values` (view_submission.go lines 72-75 and 84-88).
`kudoDescriptionValue` is `some v` when both map lookups for the
`kudo_description` field succeed. -/
structure SubmissionValues where
  selectedUsers : List String
  kudoMessage : String
  kudoTypeFullText : String
  kudoTypeValue : String
  kudoDescriptionValue : Option String
deriving DecidableEq, Repr

/-- Observable outcome of `HandleViewSubmission`: the 400 answer for a
missing view state, the 200 `response_action: errors` body (one optional
message per field key), or the arguments of the single `PostKudos` call
followed by a 200. -/
inductive SubmissionOutcome where
  | invalidState
  | validationErrors (kudoDescriptionError kudoMessageError : Option String)
  | posted (senderID : String) (recipientIDs : List String)
      (emoji label message : String)
deriving DecidableEq, Repr

/-- HTTP status written for each outcome of `HandleViewSubmission`. -/
def submissionStatus : SubmissionOutcome → Nat
  | .invalidState => 400
  | .validationErrors _ _ => 200
  | .posted _ _ _ _ _ => 200

/-- Embedding of `handlers.HandleViewSubmission` (view_submission.go lines 63-147):
custom kudo types validate the trimmed description (non-empty, at most 150
bytes) and require a message, answering the structured error body on any
failure; predefined types substitute the catalog suggestion for an empty
message and split the label into emoji and text.  A post error is only
logged, so the posted outcome carries no failure information. -/
def HandleViewSubmission (userID : String) (state : Option SubmissionValues) :
    SubmissionOutcome :=
  match state with
  | none => .invalidState
  | some v =>
      if v.kudoTypeValue == "custom" then
        let customDescription := trimSpace (v.kudoDescriptionValue.getD "")
        let descErr :=
          if customDescription == "" then
            some "Por favor, preencha o nome do tipo de elogio"
          else if goLen customDescription > 150 then
            some "Nome do tipo de elogio muito longo (máximo 150 caracteres)"
          else none
        let msgErr :=
          if v.kudoMessage == "" then
            some "A mensagem é obrigatória para elogios personalizados"
          else none
        if descErr.isSome || msgErr.isSome then .validationErrors descErr msgErr
        else .posted userID v.selectedUsers "✏️" customDescription v.kudoMessage
      else
        let kudoMessage :=
          if v.kudoMessage == "" then (KudoSuggestedMessages.lookup v.kudoTypeValue).getD ""
          else v.kudoMessage
        let p := ParseKudoTypeText v.kudoTypeFullText
        .posted userID v.selectedUsers p.1 p.2 kudoMessage

/-- Convenience accessor: the `initial_value` of a block's element, when
both exist. -/
def descInitialOf (b : BlockMap) : Option String :=
  b.element.bind ElementMap.initialValue

/-- The block list after the scan loop's message pre-fill pass. -/
def scannedBlocks (messageValue : String) (blocks : List BlockEntry) : List BlockEntry :=
  blocks.map (touchMessage messageValue)

/-- The `descriptionBlockIndex` computed by the scan, on the scanned
list. -/
def descIdx (messageValue : String) (blocks : List BlockEntry) : Option Nat :=
  lastIdxOfBlockId "kudo_description" (scannedBlocks messageValue blocks)

/-- The replacement description block as `UpdateModal` builds it for this
template. -/
def builtDescriptionBlock (selectedKudoType messageValue : String)
    (blocks : List BlockEntry) : BlockMap :=
  buildDescriptionBlock selectedKudoType messageValue (scannedBlocks messageValue blocks)
    (descIdx messageValue blocks)

/-- A bare `kudo_type` selector block, used as a concrete template entry. -/
def ktEx : BlockEntry :=
  .map { blockId := some "kudo_type", btype := none, label := none, element := none,
         elements := none, rest := [] }

/-- A `kudo_message` input block with an element carrying no
`initial_value`, used as a concrete template entry. -/
def msgEx : BlockEntry :=
  .map { blockId := some "kudo_message", btype := none, label := none,
         element := some { etype := none, actionId := none, placeholder := none,
                           initialValue := none, rest := [] },
         elements := none, rest := [] }

/-- A pre-existing `context`-type description block, used as a concrete
template entry. -/
def ctxDescEx : BlockEntry := .map (contextDescriptionBlock "old description")

/-- A pre-existing `input`-type description block whose element carries the
typed custom name `"My Custom Type"` (the shape produced by toggling away
from the custom kudo type after typing). -/
def inputDescEx : BlockEntry :=
  .map { blockId := some "kudo_description", btype := some "input", label := none,
         element := some { etype := some "plain_text_input",
                           actionId := some "kudo_description", placeholder := none,
                           initialValue := some "My Custom Type", rest := [] },
         elements := none, rest := [] }

/-- A pre-existing `input`-type description block whose element's
`initial_value` happens to equal one of the catalog's suggested
messages. -/
def catalogDescEx : BlockEntry :=
  .map { blockId := some "kudo_description", btype := some "input", label := none,
         element := some { etype := some "plain_text_input",
                           actionId := some "kudo_description", placeholder := none,
                           initialValue := some "Sua habilidade de resolver problemas salvou o dia!",
                           rest := [] },
         elements := none, rest := [] }

/-- Concrete submission state: custom kudo type with a whitespace-only
description and an empty message. -/
def c3ExVals : SubmissionValues :=
  { selectedUsers := ["U2"], kudoMessage := "", kudoTypeFullText := "",
    kudoTypeValue := "custom", kudoDescriptionValue := some "   " }

/-- The scan step never changes which `block_id` an entry matches. -/
theorem isBlockWithId_touchMessage (bid m : String) (b : BlockEntry) :
    isBlockWithId bid (touchMessage m b) = isBlockWithId bid b := by
  cases b with
  | other raw => rfl
  | map bm =>
      simp only [touchMessage]
      split
      · split
        · split <;> simp [isBlockWithId]
        · rfl
      · rfl

/-- With an empty message value the scan step is the identity. -/
theorem touchMessage_empty (b : BlockEntry) : touchMessage "" b = b := by
  cases b with
  | other raw => rfl
  | map bm =>
      simp only [touchMessage]
      split
      · cases hbe : bm.element with
        | none => rfl
        | some e => simp
      · rfl

/-- The scan step leaves any entry that is not a `kudo_message` block
untouched. -/
theorem touchMessage_eq_of_not_message (m : String) (b : BlockEntry)
    (h : isBlockWithId "kudo_message" b = false) : touchMessage m b = b := by
  cases b with
  | other raw => rfl
  | map bm =>
      simp only [isBlockWithId] at h
      simp [touchMessage, h]

/-- A found last index is in bounds and points at a matching entry. -/
theorem lastIdx_spec (bid : String) (l : List BlockEntry) (i : Nat)
    (h : lastIdxOfBlockId bid l = some i) :
    i < l.length ∧ ∃ b, l[i]? = some b ∧ isBlockWithId bid b = true := by
  induction l generalizing i with
  | nil => simp [lastIdxOfBlockId] at h
  | cons hd tl ih =>
      simp only [lastIdxOfBlockId] at h
      cases htl : lastIdxOfBlockId bid tl with
      | some j =>
          rw [htl] at h
          cases h
          obtain ⟨hlt, b, hb, hmatch⟩ := ih j htl
          refine ⟨by simpa using Nat.succ_lt_succ hlt, b, ?_, hmatch⟩
          simpa using hb
      | none =>
          rw [htl] at h
          by_cases hm : isBlockWithId bid hd = true
          · rw [if_pos hm] at h
            cases h
            exact ⟨Nat.succ_pos _, hd, by simp, hm⟩
          · rw [if_neg hm] at h
            cases h

/-- No last index means no entry matches. -/
theorem lastIdx_none (bid : String) (l : List BlockEntry)
    (h : lastIdxOfBlockId bid l = none) : ∀ b ∈ l, isBlockWithId bid b = false := by
  induction l with
  | nil => intro b hb; simp at hb
  | cons hd tl ih =>
      simp only [lastIdxOfBlockId] at h
      cases htl : lastIdxOfBlockId bid tl with
      | some j => rw [htl] at h; cases h
      | none =>
          rw [htl] at h
          intro b hb
          rcases List.mem_cons.mp hb with rfl | hb'
          · by_cases hm : isBlockWithId bid b = true
            · rw [if_pos hm] at h; cases h
            · simpa using hm
          · exact ih htl b hb'

/-- Some entry matching forces a last index to exist. -/
theorem lastIdx_isSome_of_contains (bid : String) (l : List BlockEntry)
    (h : containsBlockId bid l = true) : ∃ i, lastIdxOfBlockId bid l = some i := by
  cases hidx : lastIdxOfBlockId bid l with
  | some i => exact ⟨i, rfl⟩
  | none =>
      obtain ⟨b, hb, hmatch⟩ := List.any_eq_true.mp h
      have := lastIdx_none bid l hidx b hb
      rw [this] at hmatch
      cases hmatch

/-- No entry matching forces the last index to be absent. -/
theorem lastIdx_eq_none_of_not_contains (bid : String) (l : List BlockEntry)
    (h : containsBlockId bid l = false) : lastIdxOfBlockId bid l = none := by
  cases hidx : lastIdxOfBlockId bid l with
  | none => rfl
  | some i =>
      obtain ⟨_, b, hb, hmatch⟩ := lastIdx_spec bid l i hidx
      have : b ∈ l := by
        have hlt := (lastIdx_spec bid l i hidx).1
        exact List.getElem?_mem hb
      have hall : l.any (isBlockWithId bid) = true := List.any_eq_true.mpr ⟨b, this, hmatch⟩
      rw [containsBlockId] at h
      rw [h] at hall
      cases hall

/-- The scan indices are insensitive to the message pre-fill pass. -/
theorem lastIdx_map_touch (bid m : String) (l : List BlockEntry) :
    lastIdxOfBlockId bid (l.map (touchMessage m)) = lastIdxOfBlockId bid l := by
  induction l with
  | nil => rfl
  | cons hd tl ih =>
      simp only [List.map_cons, lastIdxOfBlockId, ih, isBlockWithId_touchMessage]

/-- The replacement description block always carries
`block_id = "kudo_description"`. -/
theorem buildDescriptionBlock_blockId (skt mv : String) (scanned : List BlockEntry)
    (dIdx : Option Nat) :
    (buildDescriptionBlock skt mv scanned dIdx).blockId = some "kudo_description" := by
  simp only [buildDescriptionBlock]
  split
  · split
    · split <;> rfl
    · rfl
  · rfl

/-- Every entry of the mutated block list is either the freshly built
description block or comes from the scanned (message pre-filled) list. -/
theorem mem_updateModalBlocks (skt mv : String) (blocks : List BlockEntry)
    (b : BlockEntry) (hb : b ∈ updateModalBlocks skt mv blocks) :
    b = .map (buildDescriptionBlock skt mv (blocks.map (touchMessage mv))
                (lastIdxOfBlockId "kudo_description" (blocks.map (touchMessage mv)))) ∨
      b ∈ blocks.map (touchMessage mv) := by
  simp only [updateModalBlocks] at hb
  split at hb
  · rcases List.mem_append.mp hb with hb' | hdrop
    · rcases List.mem_append.mp hb' with htake | hdesc
      · exact Or.inr (List.take_subset _ _ htake)
      · rcases List.mem_singleton.mp hdesc with rfl
        rename_i heqnone heq
        rw [heqnone]
        exact Or.inl rfl
    · exact Or.inr (List.drop_subset _ _ hdrop)
  · rcases List.mem_or_eq_of_mem_set hb with hmem | rfl
    · exact Or.inr hmem
    · rename_i heq
      rw [heq]
      exact Or.inl rfl
  · exact Or.inr hb

/-- A scanned entry that presents itself as a `kudo_message` block with an
element object has its `initial_value` pre-filled with the (non-empty)
message value. -/
theorem touchMessage_message_initial (mv : String) (hmv : mv ≠ "") (b₀ : BlockEntry)
    (bm : BlockMap) (e : ElementMap) (hb : touchMessage mv b₀ = .map bm)
    (hid : bm.blockId = some "kudo_message") (he : bm.element = some e) :
    e.initialValue = some mv := by
  cases b₀ with
  | other raw => simp [touchMessage] at hb
  | map bm₀ =>
      by_cases hid₀ : bm₀.blockId = some "kudo_message"
      · cases he₀ : bm₀.element with
        | none =>
            simp [touchMessage, hid₀, he₀] at hb
            subst hb
            rw [he₀] at he
            cases he
        | some e₀ =>
            simp [touchMessage, hid₀, he₀, hmv] at hb
            subst hb
            simp only [] at he
            cases he
            rfl
      · simp [touchMessage, beq_iff_eq, hid₀] at hb
        subst hb
        exact absurd hid hid₀

/-- Every suggested message in the catalog is a non-empty string. -/
theorem lookup_suggested_ne_empty (k m : String)
    (h : KudoSuggestedMessages.lookup k = some m) : m ≠ "" := by
  have hmem : ∀ l : List (String × String), ∀ k m : String,
      l.lookup k = some m → m ∈ l.map Prod.snd := by
    intro l
    induction l with
    | nil => intro k m h; simp [List.lookup] at h
    | cons hd tl ih =>
        intro k m h
        simp only [List.lookup] at h
        split at h
        · cases h
          simp
        · simpa using Or.inr (ih k m h)
  have hin := hmem KudoSuggestedMessages k m h
  have hne : ∀ x ∈ KudoSuggestedMessages.map Prod.snd, x ≠ "" := by decide
  exact hne m hin

/-- The sentinel slug `"custom"` has no catalog entry. -/
theorem lookup_custom_eq_none : KudoSuggestedMessages.lookup "custom" = none := by decide

/-- Unfolding of the mutation in terms of the scan decomposition. -/
theorem updateModalBlocks_eq (skt mv : String) (blocks : List BlockEntry) :
    updateModalBlocks skt mv blocks =
      match descIdx mv blocks, lastIdxOfBlockId "kudo_type" (scannedBlocks mv blocks) with
      | none, some i =>
          (scannedBlocks mv blocks).take (i + 1) ++ [.map (builtDescriptionBlock skt mv blocks)]
            ++ (scannedBlocks mv blocks).drop (i + 1)
      | some j, _ => (scannedBlocks mv blocks).set j (.map (builtDescriptionBlock skt mv blocks))
      | none, none => scannedBlocks mv blocks := by
  simp only [updateModalBlocks, scannedBlocks, descIdx, builtDescriptionBlock]

/-- In the replace branch, the built description block lands at the
description index. -/
theorem replace_branch_getElem (skt mv : String) (blocks : List BlockEntry) (j : Nat)
    (hdesc : descIdx mv blocks = some j) :
    (updateModalBlocks skt mv blocks)[j]? = some (.map (builtDescriptionBlock skt mv blocks)) := by
  have hlt : j < (scannedBlocks mv blocks).length :=
    (lastIdx_spec "kudo_description" (scannedBlocks mv blocks) j hdesc).1
  rw [updateModalBlocks_eq, hdesc]
  simp [List.getElem?_set, hlt]

/-- In the insert branch, the built description block lands right after the
`kudo_type` index. -/
theorem insert_branch_getElem (skt mv : String) (blocks : List BlockEntry) (i : Nat)
    (hdesc : descIdx mv blocks = none)
    (hkt : lastIdxOfBlockId "kudo_type" (scannedBlocks mv blocks) = some i) :
    (updateModalBlocks skt mv blocks)[i + 1]? =
      some (.map (builtDescriptionBlock skt mv blocks)) := by
  have hlt : i < (scannedBlocks mv blocks).length :=
    (lastIdx_spec "kudo_type" (scannedBlocks mv blocks) i hkt).1
  rw [updateModalBlocks_eq, hdesc, hkt]
  show (List.take (i + 1) (scannedBlocks mv blocks)
      ++ [BlockEntry.map (builtDescriptionBlock skt mv blocks)]
      ++ List.drop (i + 1) (scannedBlocks mv blocks))[i + 1]? =
    some (BlockEntry.map (builtDescriptionBlock skt mv blocks))
  have hlen : ((scannedBlocks mv blocks).take (i + 1)).length = i + 1 := by
    simp [List.length_take]
    omega
  rw [List.append_assoc, List.getElem?_append, if_neg (by rw [hlen]; omega), hlen]
  simp

/-- In the insert branch, the entry at the `kudo_type` index is the scanned
entry at that index. -/
theorem insert_branch_getElem_at_kt (skt mv : String) (blocks : List BlockEntry) (i : Nat)
    (hdesc : descIdx mv blocks = none)
    (hkt : lastIdxOfBlockId "kudo_type" (scannedBlocks mv blocks) = some i) :
    (updateModalBlocks skt mv blocks)[i]? = (scannedBlocks mv blocks)[i]? := by
  have hlt : i < (scannedBlocks mv blocks).length :=
    (lastIdx_spec "kudo_type" (scannedBlocks mv blocks) i hkt).1
  rw [updateModalBlocks_eq, hdesc, hkt]
  show (List.take (i + 1) (scannedBlocks mv blocks)
      ++ [BlockEntry.map (builtDescriptionBlock skt mv blocks)]
      ++ List.drop (i + 1) (scannedBlocks mv blocks))[i]? =
    (scannedBlocks mv blocks)[i]?
  have hlen : ((scannedBlocks mv blocks).take (i + 1)).length = i + 1 := by
    simp [List.length_take]
    omega
  rw [List.append_assoc, List.getElem?_append, if_pos (by rw [hlen]; omega),
    List.getElem?_take, if_pos (by omega)]

/-- With an empty message value the scan pass leaves the template's block
list unchanged. -/
theorem scannedBlocks_empty (blocks : List BlockEntry) : scannedBlocks "" blocks = blocks := by
  have h : touchMessage "" = id := funext touchMessage_empty
  rw [scannedBlocks, h, List.map_id]

/-- Every `kudo_message` block with an element object found in the mutated
block list has its `initial_value` set to the (non-empty) message value. -/
theorem message_initial_in_update (skt mv : String) (hmv : mv ≠ "")
    (blocks : List BlockEntry) (bm : BlockMap) (e : ElementMap)
    (hmem : BlockEntry.map bm ∈ updateModalBlocks skt mv blocks)
    (hid : bm.blockId = some "kudo_message") (he : bm.element = some e) :
    e.initialValue = some mv := by
  rcases mem_updateModalBlocks skt mv blocks _ hmem with heq | hmem'
  · have hdid := buildDescriptionBlock_blockId skt mv (blocks.map (touchMessage mv))
      (lastIdxOfBlockId "kudo_description" (blocks.map (touchMessage mv)))
    cases heq
    rw [hid] at hdid
    simp at hdid
  · obtain ⟨b₀, _, hb₀⟩ := List.mem_map.mp hmem'
    exact touchMessage_message_initial mv hmv b₀ bm e hb₀ hid he

/-- When the current message is non-empty the routed suggested message is
the current message itself, for every selected value. -/
theorem computeSuggested_of_ne (sv cm : String) (h : cm ≠ "") :
    computeSuggestedMessage sv cm = cm := by
  simp only [computeSuggestedMessage]
  split
  · rfl
  · rw [if_neg (by simpa using h)]

/-- When the current message is empty and the catalog knows the slug, the
routed suggested message is the catalog entry. -/
theorem computeSuggested_of_lookup (sv cm m : String) (hcm : cm = "")
    (hl : KudoSuggestedMessages.lookup sv = some m) :
    computeSuggestedMessage sv cm = m := by
  have hsv : sv ≠ "custom" := by
    intro hc
    rw [hc, lookup_custom_eq_none] at hl
    cases hl
  simp [computeSuggestedMessage, hsv, hcm, hl]

/-- When the current message is empty and the catalog misses, the routed
suggested message is empty. -/
theorem computeSuggested_of_lookup_none (sv cm : String) (hcm : cm = "")
    (hl : KudoSuggestedMessages.lookup sv = none) :
    computeSuggestedMessage sv cm = "" := by
  by_cases hsv : sv = "custom"
  · simp [computeSuggestedMessage, hsv, hcm]
  · simp [computeSuggestedMessage, hsv, hcm, hl]

/-- An entry matching one `block_id` cannot match a different one. -/
theorem isBlockWithId_ne (bid bid' : String) (b : BlockEntry) (hne : bid ≠ bid')
    (h : isBlockWithId bid b = true) : isBlockWithId bid' b = false := by
  cases b with
  | other raw => rfl
  | map bm =>
      simp only [isBlockWithId, beq_iff_eq] at h ⊢
      rw [h]
      simp [hne]

/-- The character count of a string never exceeds its UTF-8 byte count. -/
theorem length_le_goLen (s : String) : s.length ≤ goLen s := by
  have haux : ∀ (l : List Char) (n : Nat),
      l.length + n ≤ l.foldl (fun acc c => acc + c.utf8Size) n := by
    intro l
    induction l with
    | nil => intro n; simp
    | cons c cs ih =>
        intro n
        have h1 : cs.length + (n + 1) ≤ cs.length + (n + c.utf8Size) := by
          have := Char.utf8Size_pos c
          omega
        calc (c :: cs).length + n = cs.length + (n + 1) := by simp; omega
          _ ≤ cs.length + (n + c.utf8Size) := h1
          _ ≤ cs.foldl (fun acc c => acc + c.utf8Size) (n + c.utf8Size) := ih _
          _ = (c :: cs).foldl (fun acc c => acc + c.utf8Size) n := by simp
  obtain ⟨d⟩ := s
  have h0 := haux d 0
  rw [Nat.add_zero] at h0
  exact h0

/-- Splitting always yields at least one piece. -/
theorem splitChar_ne_nil (sep : Char) (l : List Char) : splitChar sep l ≠ [] := by
  simp [splitChar]

/-- No piece produced by the splitter core contains the separator. -/
theorem splitCharCore_not_mem (sep : Char) (l : List Char) :
    sep ∉ (splitCharCore sep l).1 ∧ ∀ p ∈ (splitCharCore sep l).2, sep ∉ p := by
  induction l with
  | nil => exact ⟨by simp [splitCharCore], by simp [splitCharCore]⟩
  | cons c cs ih =>
      by_cases hc : c = sep
      · refine ⟨by simp [splitCharCore, hc], ?_⟩
        intro p hp
        simp [splitCharCore, hc] at hp
        rcases hp with rfl | hp'
        · exact ih.1
        · exact ih.2 p hp'
      · refine ⟨?_, ?_⟩
        · simp only [splitCharCore, if_neg hc]
          intro hmem
          rcases List.mem_cons.mp hmem with heq | hmem'
          · exact hc heq.symm
          · exact ih.1 hmem'
        · intro p hp
          simp only [splitCharCore, if_neg hc] at hp
          exact ih.2 p hp

/-- No piece produced by splitting contains the separator. -/
theorem splitChar_not_mem (sep : Char) (l : List Char) :
    ∀ x ∈ splitChar sep l, sep ∉ x := by
  intro x hx
  rcases List.mem_cons.mp hx with rfl | hx'
  · exact (splitCharCore_not_mem sep l).1
  · exact (splitCharCore_not_mem sep l).2 x hx'

/-- A separator-free list is a single piece for the splitter core. -/
theorem splitCharCore_of_not_mem (sep : Char) (x : List Char) (hx : sep ∉ x) :
    splitCharCore sep x = (x, []) := by
  induction x with
  | nil => rfl
  | cons c cs ih =>
      have hc : c ≠ sep := fun h => hx (h ▸ List.mem_cons_self c cs)
      have hcs : sep ∉ cs := fun h => hx (List.mem_cons.mpr (Or.inr h))
      simp [splitCharCore, if_neg hc, ih hcs]

/-- A separator-free list splits into itself alone. -/
theorem splitChar_of_not_mem (sep : Char) (x : List Char) (hx : sep ∉ x) :
    splitChar sep x = [x] := by
  rw [splitChar, splitCharCore_of_not_mem sep x hx]

/-- Core view of splitting a separator-free chunk followed by a
separator. -/
theorem splitCharCore_append (sep : Char) (x ys : List Char) (hx : sep ∉ x) :
    splitCharCore sep (x ++ sep :: ys) = (x, splitChar sep ys) := by
  induction x with
  | nil => simp [splitCharCore, splitChar]
  | cons c cs ih =>
      have hc : c ≠ sep := fun h => hx (h ▸ List.mem_cons_self c cs)
      have hcs : sep ∉ cs := fun h => hx (List.mem_cons.mpr (Or.inr h))
      simp [splitCharCore, if_neg hc, ih hcs]

/-- Splitting a separator-free chunk followed by a separator peels off the
chunk. -/
theorem splitChar_append (sep : Char) (x ys : List Char) (hx : sep ∉ x) :
    splitChar sep (x ++ sep :: ys) = x :: splitChar sep ys := by
  rw [splitChar, splitCharCore_append sep x ys hx]

/-- Character-level counterpart of `stringsJoin` for a one-character
separator. -/
def charJoin (sep : Char) : List (List Char) → List Char
  | [] => []
  | [x] => x
  | x :: xs => x ++ sep :: charJoin sep xs

/-- Joining then splitting recovers the original separator-free pieces. -/
theorem splitChar_charJoin (sep : Char) (L : List (List Char))
    (hL : L ≠ []) (hsep : ∀ x ∈ L, sep ∉ x) :
    splitChar sep (charJoin sep L) = L := by
  induction L with
  | nil => exact absurd rfl hL
  | cons x xs ih =>
      cases xs with
      | nil =>
          show splitChar sep (charJoin sep [x]) = [x]
          rw [show charJoin sep [x] = x from rfl]
          exact splitChar_of_not_mem sep x (hsep x (List.mem_cons_self x []))
      | cons y yt =>
          show splitChar sep (charJoin sep (x :: y :: yt)) = x :: y :: yt
          rw [show charJoin sep (x :: y :: yt) = x ++ sep :: charJoin sep (y :: yt) from rfl]
          rw [splitChar_append sep x _ (hsep x (List.mem_cons_self x _))]
          rw [ih (by simp) (fun z hz => hsep z (List.mem_cons.mpr (Or.inr hz)))]

/-- Data-level view of `stringsJoin` with the newline separator. -/
theorem stringsJoin_data (xs : List String) :
    (stringsJoin "\n" xs).data = charJoin '\n' (xs.map String.data) := by
  induction xs with
  | nil => rfl
  | cons x xt ih =>
      cases xt with
      | nil => rfl
      | cons y yt =>
          show (x ++ "\n" ++ stringsJoin "\n" (y :: yt)).data =
            x.data ++ '\n' :: charJoin '\n' ((y :: yt).map String.data)
          rw [String.data_append, String.data_append, ih]
          simp [String.data]

/-- C7: for every sender id, recipient list (including empty), glyph, label
and message (including empty), `FormatKudosAsBlocks` returns exactly 7
blocks in the fixed order header, From/To summary section, divider,
category section, quoted-message section, divider, footer context. -/
theorem formatKudos_seven_blocks (senderID : String) (recipientIDs : List String)
    (glyph label message : String) :
    (FormatKudosAsBlocks senderID recipientIDs glyph label message).length = 7 ∧
    (FormatKudosAsBlocks senderID recipientIDs glyph label message).map kindOf =
      [.header, .section, .divider, .section, .section, .divider, .context] ∧
    (FormatKudosAsBlocks senderID recipientIDs glyph label message)[1]? =
      some (.section none
        [ { ttype := "mrkdwn", text := "*De:*\n<@" ++ senderID ++ ">", emoji := none },
          { ttype := "mrkdwn", text := "*Para:*\n" ++ FormatUsersForSlack recipientIDs,
            emoji := none } ]) ∧
    (FormatKudosAsBlocks senderID recipientIDs glyph label message)[3]? =
      some (.section
        (some { ttype := "mrkdwn", text := glyph ++ " *" ++ label ++ "*", emoji := none }) []) ∧
    (FormatKudosAsBlocks senderID recipientIDs glyph label message)[4]? =
      some (.section
        (some { ttype := "mrkdwn", text := FormatAsSlackQuote message, emoji := none }) []) :=
  ⟨rfl, rfl, rfl, rfl, rfl⟩

/-- C9: a response body decoding with `ok = false` makes `UpdateModal`
return an error carrying the response's error string, while `OpenModal`
returns success for every response, whatever its `ok` value — the failure
is only logged. -/
theorem response_ok_asymmetry :
    (∀ resp : SlackResp, resp.ok = false →
      updateModalHandleResponse resp = .error ("slack API error: " ++ resp.error)) ∧
    (∀ status body : String, openModalHandleResponse status body = .ok ()) := by
  constructor
  · intro resp h
    simp [updateModalHandleResponse, h]
  · intro status body
    rfl

/-- Witness for C9 at a concrete failing response. -/
theorem response_ok_asymmetry_witness :
    ({ ok := false, error := "view_not_found" } : SlackResp).ok = false ∧
    updateModalHandleResponse { ok := false, error := "view_not_found" } =
      .error "slack API error: view_not_found" :=
  ⟨rfl, response_ok_asymmetry.1 { ok := false, error := "view_not_found" } rfl⟩

/-- C10: `PostKudos` records one invite per recipient, in submission order,
before the single post-message call; its result is the same for any two
assignments of invite outcomes; and it errors exactly when the post-message
call errors. -/
theorem postKudos_trace_and_result (senderID : String) (recipientIDs : List String)
    (kudoTypeEmoji kudoTypeText message channelID : String)
    (io io' : String → Option String) (po : Except String (String × String)) :
    (PostKudos senderID recipientIDs kudoTypeEmoji kudoTypeText message channelID io po).1 =
      recipientIDs.map (fun u => ApiCall.invite channelID u) ++
        [ApiCall.postMessage channelID
          (FormatKudosAsBlocks senderID recipientIDs kudoTypeEmoji kudoTypeText message)
          ("<@" ++ senderID ++ ">" ++ " elogiou " ++ FormatUsersForSlack recipientIDs ++ ": "
            ++ kudoTypeEmoji ++ " " ++ kudoTypeText)] ∧
    (PostKudos senderID recipientIDs kudoTypeEmoji kudoTypeText message channelID io po).2 =
      (PostKudos senderID recipientIDs kudoTypeEmoji kudoTypeText message channelID io' po).2 ∧
    (PostKudos senderID recipientIDs kudoTypeEmoji kudoTypeText message channelID io po).2.isOk =
      po.isOk := by
  refine ⟨rfl, rfl, ?_⟩
  cases po <;> rfl

/-- C8: for every non-empty message, splitting the quoted output on
newlines yields exactly the input's lines each prefixed with `"> "`, so the
line counts agree and every output line is `"> "` followed by the
corresponding input line. -/
theorem formatAsSlackQuote_lines (message : String) (h : message ≠ "") :
    stringsSplitNl (FormatAsSlackQuote message) =
      (stringsSplitNl message).map (fun line => "> " ++ line) ∧
    (stringsSplitNl (FormatAsSlackQuote message)).length =
      (stringsSplitNl message).length ∧
    ∀ i : Nat, (stringsSplitNl (FormatAsSlackQuote message))[i]? =
      ((stringsSplitNl message)[i]?).map (fun line => "> " ++ line) := by
  have hmain : stringsSplitNl (FormatAsSlackQuote message) =
      (stringsSplitNl message).map (fun line => "> " ++ line) := by
    have hbeq : (message == "") = false := by simpa using h
    rw [FormatAsSlackQuote, hbeq]
    simp only [Bool.false_eq_true, if_false]
    rw [stringsSplitNl, stringsJoin_data]
    have hdata : ((stringsSplitNl message).map (fun line => "> " ++ line)).map String.data =
        (splitChar '\n' message.data).map (fun cs => '>' :: ' ' :: cs) := by
      rw [stringsSplitNl, List.map_map, List.map_map]
      refine List.map_congr_left ?_
      intro cs _
      show ("> " ++ String.mk cs).data = '>' :: ' ' :: cs
      rw [String.data_append]
      rfl
    rw [hdata]
    have hne : (splitChar '\n' message.data).map (fun cs => '>' :: ' ' :: cs) ≠ [] := by
      intro hnil
      exact splitChar_ne_nil '\n' message.data (List.map_eq_nil_iff.mp hnil)
    have hsep : ∀ x ∈ (splitChar '\n' message.data).map (fun cs => '>' :: ' ' :: cs),
        '\n' ∉ x := by
      intro x hx
      obtain ⟨cs, hcs, rfl⟩ := List.mem_map.mp hx
      intro hmem
      rcases List.mem_cons.mp hmem with heq | hmem'
      · cases heq
      · rcases List.mem_cons.mp hmem' with heq | hmem''
        · cases heq
        · exact splitChar_not_mem '\n' message.data cs hcs hmem''
    rw [splitChar_charJoin '\n' _ hne hsep]
    rw [stringsSplitNl, List.map_map, List.map_map]
    refine List.map_congr_left ?_
    intro cs _
    show String.mk ('>' :: ' ' :: cs) = "> " ++ String.mk cs
    apply String.ext
    rw [String.data_append]
    rfl
  refine ⟨hmain, by rw [hmain, List.length_map], ?_⟩
  intro i
  rw [hmain, List.getElem?_map]

/-- Witness for C8 at the concrete two-line message `"a\nb"`. -/
theorem formatAsSlackQuote_lines_witness :
    ("a\nb" : String) ≠ "" ∧
    stringsSplitNl (FormatAsSlackQuote "a\nb") =
      (stringsSplitNl "a\nb").map (fun line => "> " ++ line) :=
  ⟨by decide, (formatAsSlackQuote_lines "a\nb" (by decide)).1⟩

/-- C3: for every custom-category submission, a trimmed description that is
empty or longer than 150 characters yields a 200 response whose structured
errors name `kudo_description` and no post-message call; an empty free-text
message additionally contributes an independent `kudo_message` error in the
same response; posting happens only when no validation error is present.
The byte-length check `len(...) > 150` of the source is implied by the
claim's character count since a string has at least as many UTF-8 bytes as
characters. -/
theorem viewSubmission_custom_validation (userID : String) (v : SubmissionValues)
    (hcustom : v.kudoTypeValue = "custom") :
    (trimSpace (v.kudoDescriptionValue.getD "") = "" ∨
        150 < (trimSpace (v.kudoDescriptionValue.getD "")).length →
      submissionStatus (HandleViewSubmission userID (some v)) = 200 ∧
      ∃ de me, HandleViewSubmission userID (some v) = .validationErrors de me ∧
        de.isSome = true ∧ (v.kudoMessage = "" → me.isSome = true)) ∧
    (∀ s us e l m, HandleViewSubmission userID (some v) = .posted s us e l m →
      trimSpace (v.kudoDescriptionValue.getD "") ≠ "" ∧
      goLen (trimSpace (v.kudoDescriptionValue.getD "")) ≤ 150 ∧
      v.kudoMessage ≠ "") := by
  have hv : (v.kudoTypeValue == "custom") = true := by simp [hcustom]
  constructor
  · intro hbad
    have houtcome : ∃ de me, HandleViewSubmission userID (some v) = .validationErrors de me ∧
        de.isSome = true ∧ (v.kudoMessage = "" → me.isSome = true) := by
      by_cases hempty : trimSpace (v.kudoDescriptionValue.getD "") = ""
      · by_cases hm : v.kudoMessage = ""
        · refine ⟨some "Por favor, preencha o nome do tipo de elogio",
            some "A mensagem é obrigatória para elogios personalizados", ?_, rfl, fun _ => rfl⟩
          simp [HandleViewSubmission, hv, hempty, hm]
        · refine ⟨some "Por favor, preencha o nome do tipo de elogio", none, ?_, rfl,
            fun hm' => absurd hm' hm⟩
          simp [HandleViewSubmission, hv, hempty, hm]
      · have hlong : 150 < (trimSpace (v.kudoDescriptionValue.getD "")).length :=
          hbad.resolve_left hempty
        have hbytes : 150 < goLen (trimSpace (v.kudoDescriptionValue.getD "")) :=
          lt_of_lt_of_le hlong (length_le_goLen _)
        by_cases hm : v.kudoMessage = ""
        · refine ⟨some "Nome do tipo de elogio muito longo (máximo 150 caracteres)",
            some "A mensagem é obrigatória para elogios personalizados", ?_, rfl, fun _ => rfl⟩
          simp [HandleViewSubmission, hv, hempty, hbytes, hm]
        · refine ⟨some "Nome do tipo de elogio muito longo (máximo 150 caracteres)", none, ?_,
            rfl, fun hm' => absurd hm' hm⟩
          simp [HandleViewSubmission, hv, hempty, hbytes, hm]
    obtain ⟨de, me, heq, hde, hme⟩ := houtcome
    exact ⟨by rw [heq]; rfl, de, me, heq, hde, hme⟩
  · intro s us e l m hpost
    by_cases hempty : trimSpace (v.kudoDescriptionValue.getD "") = ""
    · simp [HandleViewSubmission, hv, hempty] at hpost
    · by_cases hbytes : 150 < goLen (trimSpace (v.kudoDescriptionValue.getD ""))
      · simp [HandleViewSubmission, hv, hempty, hbytes] at hpost
      · by_cases hm : v.kudoMessage = ""
        · simp [HandleViewSubmission, hv, hempty, hbytes, hm] at hpost
        · exact ⟨hempty, by omega, hm⟩

/-- Witness for C3: a whitespace-only description with an empty message is
rejected with both field errors and nothing is posted. -/
theorem viewSubmission_custom_validation_witness :
    (c3ExVals.kudoTypeValue = "custom" ∧
      trimSpace (c3ExVals.kudoDescriptionValue.getD "") = "") ∧
    submissionStatus (HandleViewSubmission "U1" (some c3ExVals)) = 200 :=
  ⟨⟨rfl, by decide⟩,
    ((viewSubmission_custom_validation "U1" c3ExVals rfl).1 (Or.inl (by decide))).1⟩

/-- C2: in the update body produced by a category-selector change, a
non-empty current free-text appears verbatim as the message-field element's
`initial_value` for every selected category; with empty current free-text
and a catalog slug, the catalog's suggested message appears instead; and
with empty free-text and no catalog entry the message block is passed
through unchanged, so its `initial_value` stays absent when the template
carries none. -/
theorem blockActions_message_field (selectedValue currentMessage : String)
    (blocks : List BlockEntry) :
    (currentMessage ≠ "" →
      ∀ bm e, BlockEntry.map bm ∈ blockActionsUpdatedBlocks selectedValue currentMessage blocks →
        bm.blockId = some "kudo_message" → bm.element = some e →
        e.initialValue = some currentMessage) ∧
    (∀ m, currentMessage = "" → KudoSuggestedMessages.lookup selectedValue = some m →
      ∀ bm e, BlockEntry.map bm ∈ blockActionsUpdatedBlocks selectedValue currentMessage blocks →
        bm.blockId = some "kudo_message" → bm.element = some e →
        e.initialValue = some m) ∧
    (currentMessage = "" → KudoSuggestedMessages.lookup selectedValue = none →
      ∀ bm, BlockEntry.map bm ∈ blockActionsUpdatedBlocks selectedValue currentMessage blocks →
        bm.blockId = some "kudo_message" → BlockEntry.map bm ∈ blocks) := by
  refine ⟨?_, ?_, ?_⟩
  · intro hcm bm e hmem hid he
    rw [blockActionsUpdatedBlocks, computeSuggested_of_ne selectedValue currentMessage hcm]
      at hmem
    exact message_initial_in_update selectedValue currentMessage hcm blocks bm e hmem hid he
  · intro m hcm hl bm e hmem hid he
    have hm : computeSuggestedMessage selectedValue currentMessage = m :=
      computeSuggested_of_lookup selectedValue currentMessage m hcm hl
    have hmne : m ≠ "" := lookup_suggested_ne_empty selectedValue m hl
    rw [blockActionsUpdatedBlocks, hm] at hmem
    exact message_initial_in_update selectedValue m hmne blocks bm e hmem hid he
  · intro hcm hl bm hmem hid
    have hm : computeSuggestedMessage selectedValue currentMessage = "" :=
      computeSuggested_of_lookup_none selectedValue currentMessage hcm hl
    rw [blockActionsUpdatedBlocks, hm] at hmem
    rcases mem_updateModalBlocks selectedValue "" blocks _ hmem with heq | hmem'
    · have hdid := buildDescriptionBlock_blockId selectedValue ""
        (blocks.map (touchMessage ""))
        (lastIdxOfBlockId "kudo_description" (blocks.map (touchMessage "")))
      cases heq
      rw [hid] at hdid
      simp at hdid
    · have hscan : blocks.map (touchMessage "") = blocks := scannedBlocks_empty blocks
      rw [hscan] at hmem'
      exact hmem'

/-- Witness for C2: with current text `"oi"` and a predefined slug, the
message block's element in the update body carries `initial_value "oi"`. -/
theorem blockActions_message_field_witness :
    ("oi" : String) ≠ "" ∧
    ({ etype := none, actionId := none, placeholder := none, initialValue := some "oi",
       rest := [] } : ElementMap).initialValue = some "oi" :=
  ⟨by decide,
    (blockActions_message_field "resolvedor-de-problemas" "oi" [ktEx, msgEx]).1 (by decide)
      { blockId := some "kudo_message", btype := none, label := none,
        element := some { etype := none, actionId := none, placeholder := none,
                          initialValue := some "oi", rest := [] },
        elements := none, rest := [] }
      { etype := none, actionId := none, placeholder := none, initialValue := some "oi",
        rest := [] }
      (by decide) rfl rfl⟩

/-- C1 (amended): for a template containing a `kudo_type` block, the
mutation inserts the new description block immediately after the
`kudo_type` block when no `kudo_description` block exists (one more entry),
and overwrites the existing `kudo_description` block in place otherwise
(same count, same index); in the replace case every other entry is carried
over from the scanned list, i.e. unchanged except that a `kudo_message`
block's element is pre-filled with the current free-text when that text is
non-empty. -/
theorem updateModal_insert_and_replace (skt mv : String) (blocks : List BlockEntry)
    (hkt : containsBlockId "kudo_type" blocks = true) :
    (containsBlockId "kudo_description" blocks = false →
      (updateModalBlocks skt mv blocks).length = blocks.length + 1 ∧
      ∃ i bkt,
        lastIdxOfBlockId "kudo_type" blocks = some i ∧
        blocks[i]? = some bkt ∧ isBlockWithId "kudo_type" bkt = true ∧
        (updateModalBlocks skt mv blocks)[i]? = some bkt ∧
        (updateModalBlocks skt mv blocks)[i + 1]? =
          some (.map (builtDescriptionBlock skt mv blocks))) ∧
    (containsBlockId "kudo_description" blocks = true →
      (updateModalBlocks skt mv blocks).length = blocks.length ∧
      ∃ j,
        lastIdxOfBlockId "kudo_description" blocks = some j ∧
        (updateModalBlocks skt mv blocks)[j]? =
          some (.map (builtDescriptionBlock skt mv blocks)) ∧
        ∀ k, k ≠ j →
          (updateModalBlocks skt mv blocks)[k]? = (blocks[k]?).map (touchMessage mv)) := by
  have hktid : ∀ b : BlockEntry, isBlockWithId "kudo_type" b = true →
      isBlockWithId "kudo_message" b = false := fun b hb =>
    isBlockWithId_ne "kudo_type" "kudo_message" b (by decide) hb
  constructor
  · intro hdesc
    have hdescn : descIdx mv blocks = none := by
      rw [descIdx, scannedBlocks, lastIdx_map_touch]
      exact lastIdx_eq_none_of_not_contains "kudo_description" blocks hdesc
    obtain ⟨i, hi⟩ := lastIdx_isSome_of_contains "kudo_type" blocks hkt
    have hisc : lastIdxOfBlockId "kudo_type" (scannedBlocks mv blocks) = some i := by
      rw [scannedBlocks, lastIdx_map_touch]
      exact hi
    obtain ⟨hlt, bkt, hbkt, hmatch⟩ := lastIdx_spec "kudo_type" blocks i hi
    have hlen : (updateModalBlocks skt mv blocks).length = blocks.length + 1 := by
      rw [updateModalBlocks_eq, hdescn, hisc]
      have hlt' : i < (scannedBlocks mv blocks).length := by
        rw [scannedBlocks, List.length_map]
        exact hlt
      show (List.take (i + 1) (scannedBlocks mv blocks)
        ++ [BlockEntry.map (builtDescriptionBlock skt mv blocks)]
        ++ List.drop (i + 1) (scannedBlocks mv blocks)).length = blocks.length + 1
      rw [List.length_append, List.length_append, List.length_take, List.length_drop,
        scannedBlocks, List.length_map]
      simp
      omega
    refine ⟨hlen, i, bkt, hi, hbkt, hmatch, ?_, ?_⟩
    · rw [insert_branch_getElem_at_kt skt mv blocks i hdescn hisc]
      rw [scannedBlocks, List.getElem?_map, hbkt]
      simp [touchMessage_eq_of_not_message mv bkt (hktid bkt hmatch)]
    · exact insert_branch_getElem skt mv blocks i hdescn hisc
  · intro hdesc
    obtain ⟨j, hj⟩ := lastIdx_isSome_of_contains "kudo_description" blocks hdesc
    have hjsc : descIdx mv blocks = some j := by
      rw [descIdx, scannedBlocks, lastIdx_map_touch]
      exact hj
    have hjlt : j < blocks.length := (lastIdx_spec "kudo_description" blocks j hj).1
    have hlen : (updateModalBlocks skt mv blocks).length = blocks.length := by
      rw [updateModalBlocks_eq, hjsc]
      show ((scannedBlocks mv blocks).set j
        (BlockEntry.map (builtDescriptionBlock skt mv blocks))).length = blocks.length
      rw [List.length_set, scannedBlocks, List.length_map]
    refine ⟨hlen, j, hj, replace_branch_getElem skt mv blocks j hjsc, ?_⟩
    intro k hk
    rw [updateModalBlocks_eq, hjsc]
    show ((scannedBlocks mv blocks).set j
      (BlockEntry.map (builtDescriptionBlock skt mv blocks)))[k]? = (blocks[k]?).map (touchMessage mv)
    rw [List.getElem?_set, if_neg (fun h => hk h.symm), scannedBlocks, List.getElem?_map]

/-- C1 counterexample: in the replace case the other blocks are NOT all
unchanged — with a non-empty current free-text the `kudo_message` block's
element differs from the template's. -/
theorem updateModal_replace_changes_message_block :
    containsBlockId "kudo_type" [ktEx, ctxDescEx, msgEx] = true ∧
    containsBlockId "kudo_description" [ktEx, ctxDescEx, msgEx] = true ∧
    (updateModalBlocks "entrega-excepcional" "oi" [ktEx, ctxDescEx, msgEx]).length =
      ([ktEx, ctxDescEx, msgEx] : List BlockEntry).length ∧
    (updateModalBlocks "entrega-excepcional" "oi" [ktEx, ctxDescEx, msgEx])[2]? ≠
      ([ktEx, ctxDescEx, msgEx] : List BlockEntry)[2]? := by
  refine ⟨by decide, by decide, by decide, by decide⟩

/-- Witness for C1 at a concrete two-block template with no description
block. -/
theorem updateModal_insert_and_replace_witness :
    containsBlockId "kudo_type" [ktEx, msgEx] = true ∧
    (updateModalBlocks "entrega-excepcional" "oi" [ktEx, msgEx]).length =
      ([ktEx, msgEx] : List BlockEntry).length + 1 :=
  ⟨by decide,
    ((updateModal_insert_and_replace "entrega-excepcional" "oi" [ktEx, msgEx]
      (by decide)).1 (by decide)).1⟩

/-- C6 (amended): for the custom kudo type, a recoverable non-empty prior
value from the existing description block is carried into the new input
block's `initial_value` only when the current free-text (`messageValue`) is
also non-empty; with an empty message value, or no recoverable prior value,
the `initial_value` is left unset.  The built block is the one placed at
the description index. -/
theorem updateModal_custom_carry_forward (mv : String) (blocks : List BlockEntry) :
    (∀ v, mv ≠ "" →
      recoveredPrior (scannedBlocks mv blocks) (descIdx mv blocks) = some v →
      descInitialOf (builtDescriptionBlock "custom" mv blocks) = some v) ∧
    (mv = "" → descInitialOf (builtDescriptionBlock "custom" mv blocks) = none) ∧
    (recoveredPrior (scannedBlocks mv blocks) (descIdx mv blocks) = none →
      descInitialOf (builtDescriptionBlock "custom" mv blocks) = none) ∧
    (∀ j, descIdx mv blocks = some j →
      (updateModalBlocks "custom" mv blocks)[j]? =
        some (.map (builtDescriptionBlock "custom" mv blocks))) := by
  refine ⟨?_, ?_, ?_, ?_⟩
  · intro v hmv hrec
    rw [builtDescriptionBlock, buildDescriptionBlock]
    rw [if_pos (by decide), if_pos hmv, hrec]
    rfl
  · intro hmv
    rw [builtDescriptionBlock, buildDescriptionBlock]
    rw [if_pos (by decide), if_neg (by simp [hmv])]
    rfl
  · intro hrec
    rw [builtDescriptionBlock, buildDescriptionBlock, if_pos (by decide)]
    by_cases hmv : mv ≠ ""
    · rw [if_pos hmv, hrec]
      rfl
    · rw [if_neg hmv]
      rfl
  · intro j hj
    exact replace_branch_getElem "custom" mv blocks j hj

/-- C6 counterexample: with an empty current free-text, the prior custom
value `"My Custom Type"` recoverable from the existing description block is
NOT carried forward — the new input block's `initial_value` is unset. -/
theorem updateModal_custom_carry_skipped :
    descInitialOf
        (match inputDescEx with | .map b => b | .other _ => customDescriptionBase) =
      some "My Custom Type" ∧
    (updateModalBlocks "custom" "" [ktEx, inputDescEx, msgEx])[1]? =
      some (.map customDescriptionBase) ∧
    descInitialOf customDescriptionBase = none := by
  refine ⟨by decide, by decide, by decide⟩

/-- Witness for C6 with a non-empty message value, where the carry-forward
does fire. -/
theorem updateModal_custom_carry_forward_witness :
    (("x" : String) ≠ "" ∧
      recoveredPrior (scannedBlocks "x" [ktEx, inputDescEx, msgEx])
        (descIdx "x" [ktEx, inputDescEx, msgEx]) = some "My Custom Type") ∧
    descInitialOf (builtDescriptionBlock "custom" "x" [ktEx, inputDescEx, msgEx]) =
      some "My Custom Type" :=
  ⟨⟨by decide, by decide⟩,
    (updateModal_custom_carry_forward "x" [ktEx, inputDescEx, msgEx]).1 "My Custom Type"
      (by decide) (by decide)⟩

/-- C4 (amended): for the custom kudo type the built description block has
type `input`, and its element's `initial_value` is never sourced from the
suggested-message catalog: it is set only to a value recovered from the
template's existing description block (and only when the current free-text
is non-empty), so it can coincide with a catalog message only if that exact
string was already in the template.  The built block is what the mutation
places at the description index, or right after `kudo_type` when no
description block exists. -/
theorem updateModal_custom_description_provenance (mv : String) (blocks : List BlockEntry) :
    (builtDescriptionBlock "custom" mv blocks).btype = some "input" ∧
    (∀ v, descInitialOf (builtDescriptionBlock "custom" mv blocks) = some v →
      mv ≠ "" ∧ recoveredPrior (scannedBlocks mv blocks) (descIdx mv blocks) = some v) ∧
    (∀ j, descIdx mv blocks = some j →
      (updateModalBlocks "custom" mv blocks)[j]? =
        some (.map (builtDescriptionBlock "custom" mv blocks))) ∧
    (∀ i, descIdx mv blocks = none →
      lastIdxOfBlockId "kudo_type" (scannedBlocks mv blocks) = some i →
      (updateModalBlocks "custom" mv blocks)[i + 1]? =
        some (.map (builtDescriptionBlock "custom" mv blocks))) := by
  refine ⟨?_, ?_, ?_, ?_⟩
  · rw [builtDescriptionBlock, buildDescriptionBlock, if_pos (by decide)]
    by_cases hmv : mv ≠ ""
    · rw [if_pos hmv]
      cases hrec : recoveredPrior (scannedBlocks mv blocks) (descIdx mv blocks) <;> rfl
    · rw [if_neg hmv]
      rfl
  · intro v hv
    rw [builtDescriptionBlock, buildDescriptionBlock, if_pos (by decide)] at hv
    by_cases hmv : mv ≠ ""
    · rw [if_pos hmv] at hv
      cases hrec : recoveredPrior (scannedBlocks mv blocks) (descIdx mv blocks) with
      | none =>
          rw [hrec] at hv
          cases hv
      | some w =>
          rw [hrec] at hv
          exact ⟨hmv, hv⟩
    · rw [if_neg hmv] at hv
      cases hv
  · intro j hj
    exact replace_branch_getElem "custom" mv blocks j hj
  · intro i hdescn hkt
    exact insert_branch_getElem "custom" mv blocks i hdescn hkt

/-- C4 counterexample: a template whose existing description block already
holds a catalog suggested message as its `initial_value` makes the custom
branch emit an `initial_value` that IS a catalog suggested message. -/
theorem updateModal_custom_catalog_coincidence :
    (KudoSuggestedMessages.map Prod.snd).contains
        "Sua habilidade de resolver problemas salvou o dia!" = true ∧
    (updateModalBlocks "custom" "x" [ktEx, catalogDescEx, msgEx])[1]? =
      some (.map (setDescInitial customDescriptionBase
        "Sua habilidade de resolver problemas salvou o dia!")) ∧
    descInitialOf (setDescInitial customDescriptionBase
        "Sua habilidade de resolver problemas salvou o dia!") =
      some "Sua habilidade de resolver problemas salvou o dia!" := by
  refine ⟨by decide, by decide, by decide⟩

/-- Witness for C4's provenance clause at a template with no recoverable
prior value. -/
theorem updateModal_custom_description_provenance_witness :
    (builtDescriptionBlock "custom" "x" [ktEx, msgEx]).btype = some "input" ∧
    descIdx "x" [ktEx, msgEx] = none ∧
    (updateModalBlocks "custom" "x" [ktEx, msgEx])[1]? =
      some (.map (builtDescriptionBlock "custom" "x" [ktEx, msgEx])) :=
  ⟨(updateModal_custom_description_provenance "x" [ktEx, msgEx]).1, by decide,
    (updateModal_custom_description_provenance "x" [ktEx, msgEx]).2.2.2 0 (by decide) (by decide)⟩

/-- C5 (amended): a template whose block list has no `kudo_type` block does
NOT make `UpdateModal` fail — the update body is still built and sent.
With no `kudo_description` block either, no description block is inserted
(the block list is unchanged apart from the message pre-fill); an existing
`kudo_description` block is still replaced in place. -/
theorem updateModalBuild_missing_kudo_type (vid hsh skt mv : String)
    (blocks : List BlockEntry) (vrest trest : List (String × String))
    (hkt : containsBlockId "kudo_type" blocks = false) :
    (containsBlockId "kudo_description" blocks = false →
      UpdateModalBuild vid hsh skt mv
          (.parsed { view := some { blocks := some blocks, rest := vrest }, rest := trest }) =
        .ok { viewId := vid, hash := hsh, viewBlocks := scannedBlocks mv blocks,
              viewRest := vrest }) ∧
    (containsBlockId "kudo_description" blocks = true →
      ∃ j, lastIdxOfBlockId "kudo_description" blocks = some j ∧
        UpdateModalBuild vid hsh skt mv
            (.parsed { view := some { blocks := some blocks, rest := vrest }, rest := trest }) =
          .ok { viewId := vid, hash := hsh,
                viewBlocks := (scannedBlocks mv blocks).set j
                  (.map (builtDescriptionBlock skt mv blocks)),
                viewRest := vrest }) := by
  have hktn : lastIdxOfBlockId "kudo_type" (scannedBlocks mv blocks) = none := by
    rw [scannedBlocks, lastIdx_map_touch]
    exact lastIdx_eq_none_of_not_contains "kudo_type" blocks hkt
  constructor
  · intro hdesc
    have hdescn : descIdx mv blocks = none := by
      rw [descIdx, scannedBlocks, lastIdx_map_touch]
      exact lastIdx_eq_none_of_not_contains "kudo_description" blocks hdesc
    have hub : updateModalBlocks skt mv blocks = scannedBlocks mv blocks := by
      rw [updateModalBlocks_eq, hdescn, hktn]
    simp only [UpdateModalBuild]
    rw [hub]
  · intro hdesc
    obtain ⟨j, hj⟩ := lastIdx_isSome_of_contains "kudo_description" blocks hdesc
    have hjsc : descIdx mv blocks = some j := by
      rw [descIdx, scannedBlocks, lastIdx_map_touch]
      exact hj
    refine ⟨j, hj, ?_⟩
    have hub : updateModalBlocks skt mv blocks =
        (scannedBlocks mv blocks).set j (.map (builtDescriptionBlock skt mv blocks)) := by
      rw [updateModalBlocks_eq, hjsc]
    simp only [UpdateModalBuild]
    rw [hub]

/-- C5 counterexample: `UpdateModal` on a structurally valid template with
no `kudo_type` block succeeds (returns the assembled update body) instead
of failing with a structural error. -/
theorem updateModalBuild_no_kudo_type_ok :
    containsBlockId "kudo_type" [msgEx] = false ∧
    UpdateModalBuild "V1" "h1" "espirito-de-equipe" ""
        (.parsed { view := some { blocks := some [msgEx], rest := [] }, rest := [] }) =
      .ok { viewId := "V1", hash := "h1", viewBlocks := [msgEx], viewRest := [] } :=
  ⟨by decide, rfl⟩

/-- Witness for C5's amended statement at a concrete one-block template. -/
theorem updateModalBuild_missing_kudo_type_witness :
    containsBlockId "kudo_type" [msgEx] = false ∧
    UpdateModalBuild "V1" "h1" "espirito-de-equipe" "oi"
        (.parsed { view := some { blocks := some [msgEx], rest := [] }, rest := [] }) =
      .ok { viewId := "V1", hash := "h1", viewBlocks := scannedBlocks "oi" [msgEx],
            viewRest := [] } :=
  ⟨by decide,
    (updateModalBuild_missing_kudo_type "V1" "h1" "espirito-de-equipe" "oi" [msgEx] [] []
      (by decide)).1 (by decide)⟩
